import Mathlib

/-!
# Kubernetes broker controller and TPR binding storage

A shallow embedding of

* `contrib/pkg/broker/k8s/controller/controller.go` (resource naming, plan type
  resolution, schema fetching, catalog aggregation, unbinding), and
* `pkg/controller/storage/tpr/storage_binding.go` (the binding store adapter).

Go strings are embedded as Lean strings. The only string operations the code
performs are on ASCII patterns, so working on characters agrees with Go's
byte-wise behaviour on every valid UTF-8 string.

External collaborators (`util.Fetch`, `util.FetchObject`, the reifier, the
watcher's resource client) are parameters: each is a function of an abstract
world state, and every invocation is recorded in a call log.
-/

set_option autoImplicit false

/-! ## Go library functions used by the controller -/

namespace strings

/-- Go `strings.HasPrefix(s, pre)`. -/
def HasPrefix (s pre : String) : Bool :=
  pre.data.isPrefixOf s.data

/-- Worker of `Replace` on character lists: scans `s` left to right, replacing
non-overlapping occurrences of `old` by `new` until `n` reaches `0` (a negative
`n` never does). `fuel` bounds the number of scan steps; `s.length + 1` is
always enough for a non-empty `old`. -/
def replaceFuel (old new : List Char) : Nat → Int → List Char → List Char
  | 0, _, s => s
  | fuel + 1, n, s =>
    if n = 0 then s
    else if old.isPrefixOf s then
      new ++ replaceFuel old new fuel (n - 1) (s.drop old.length)
    else
      match s with
      | [] => []
      | c :: cs => c :: replaceFuel old new fuel n cs

/-- Go `strings.Replace(s, old, new, n)` for a non-empty `old`: the first `n`
non-overlapping occurrences of `old` are replaced by `new`; all of them when
`n < 0`. -/
def Replace (s old new : String) (n : Int) : String :=
  ⟨replaceFuel old.data new.data (s.data.length + 1) n s.data⟩

end strings

namespace fmt

/-- An operand of `Sprintf`: a Go `string` or a Go `int`. -/
inductive Arg where
  | str (s : String)
  | int (i : Int)

/-- Worker of `Sprintf` on character lists: a `%s` verb consumes a string
operand, a `%d` verb an integer operand (written in decimal); every other
character is copied. -/
def sprintfChars : List Char → List Arg → List Char
  | [], _ => []
  | '%' :: 's' :: rest, Arg.str a :: args => a.data ++ sprintfChars rest args
  | '%' :: 'd' :: rest, Arg.int i :: args => (toString i).data ++ sprintfChars rest args
  | c :: rest, args => c :: sprintfChars rest args

/-- Go `fmt.Sprintf(format, args...)` for formats whose verbs are `%s` and `%d`
and whose operands match the verbs in number and type (the only way the
controller calls it). -/
def Sprintf (format : String) (args : List Arg) : String :=
  ⟨sprintfChars format.data args⟩

end fmt

/-! ## Resource naming (`controller.go`, lines 32-45 and 263-273) -/

/-- Go `type resourceType int`. -/
abbrev resourceType := Int

/-- First constant of the `iota` block. -/
def serviceInstance : resourceType := 0

/-- Second constant of the `iota` block. -/
def serviceBinding : resourceType := 1

def instanceNameFmt : String := "cf-i-%s"

def bindingNameFmt : String := "cf-b-%s"

/-- Go `createResourceName`: converts a UUID to a resource name. -/
def createResourceName (id : String) (t : resourceType) : String :=
  let cleanName := strings.Replace id "-" "" (-1)
  if t = serviceInstance then fmt.Sprintf instanceNameFmt [fmt.Arg.str cleanName]
  else if t = serviceBinding then fmt.Sprintf bindingNameFmt [fmt.Arg.str cleanName]
  else ""

/-- The identifier with every hyphen removed. -/
def stripHyphens (id : String) : String :=
  ⟨id.data.filter (fun c => c ≠ '-')⟩

/-! ## Values, results and the `brokerapi` data model -/

/-- A Go `error`, represented by its message. -/
abbrev Error := String

/-- Outcome of a call of a Go function with results `(*α, error)`: it returns
the pair `(val, err)`, where `none` stands for `nil`, or it aborts with a
run-time panic. -/
inductive Result (α : Type) where
  | ret (val : Option α) (err : Option Error)
  | panic
  deriving DecidableEq, Repr

/-- A Go `interface{}` value as `encoding/json` decodes it: `nil`, `bool`,
`float64` (kept as its bit pattern, never computed with), `string`,
`[]interface{}` or `map[string]interface{}`. A map is an association list; the
first entry of a key is its entry. -/
inductive Value where
  | nil
  | bool (b : Bool)
  | float64 (bits : Nat)
  | string (s : String)
  | slice (xs : List Value)
  | map (m : List (String × Value))

namespace brokerapi

/-- Modelled from the spec: `brokerapi.Types`, not under the sources
("Types: {Instance: artifact locator string, Binding: optional artifact
locator string}"). -/
structure Types where
  Instance : String
  Binding : String
  deriving DecidableEq, Repr

/-- Modelled from the spec: `brokerapi.Schema`, not under the sources
("Schema: {Inputs: raw schema text}"). -/
structure Schema where
  Inputs : String
  deriving DecidableEq, Repr

/-- Modelled from the spec: `brokerapi.Schemas`, not under the sources
("Schemas: {Instance: Schema, Binding: optional Schema}"); both fields are
`Schema` values in the code, the zero value being `Schema{Inputs: ""}`. -/
structure Schemas where
  Instance : Schema
  Binding : Schema
  deriving DecidableEq, Repr

/-- Modelled from the spec: `brokerapi.ServicePlan`, not under the sources
("ServicePlan: {ID, Metadata: mapping of string→opaque value, Schemas}").
`Metadata` is an `interface{}`; `Schemas` is a pointer, `none` being `nil`. -/
structure ServicePlan where
  ID : String
  Metadata : Value
  Schemas : Option Schemas

/-- Modelled from the spec: `brokerapi.Service`, not under the sources
("Service: {ID, Name, ordered sequence of ServicePlan}"). -/
structure Service where
  ID : String
  Name : String
  Plans : List ServicePlan

/-- Modelled from the spec: `brokerapi.Catalog`, not under the sources; the
code builds it as `Catalog{Services: services}` from a `[]*brokerapi.Service`,
whose entries may be `nil` (`none`). -/
structure Catalog where
  Services : List (Option Service)

end brokerapi

open brokerapi (Types Schema Schemas ServicePlan Service)

/-- The plan metadata keys `brokerapi.InstanceType` and `brokerapi.BindingType`,
constants declared outside the sources. -/
structure MetadataKeys where
  InstanceType : String
  BindingType : String

/-! ## External collaborators and the call log -/

/-- A call to an external collaborator of the controller. -/
inductive Call where
  | FetchObject (url : String)
  | Fetch (url : String)
  | RemoveServiceBinding (name : String)
  | RemoveServiceInstance (name : String)
  deriving DecidableEq, Repr

/-- The external collaborators of the controller over a world state `σ`:
`util.Fetch`, `util.FetchObject` (decoding into a `[]*brokerapi.Service`) and
the two removal operations of the reifier. -/
structure Env (σ : Type) where
  Fetch : String → σ → Except Error String × σ
  FetchObject : String → σ → Except Error (List (Option Service)) × σ
  RemoveServiceBinding : String → σ → Option Error × σ
  RemoveServiceInstance : String → σ → Option Error × σ

/-- World state together with the log of the calls issued so far. -/
structure State (σ : Type) where
  world : σ
  calls : List Call

namespace util

/-- A call of `util.Fetch(u)`. -/
def Fetch {σ : Type} (env : Env σ) (u : String) (st : State σ) :
    Except Error String × State σ :=
  ((env.Fetch u st.world).1,
    { world := (env.Fetch u st.world).2, calls := st.calls ++ [Call.Fetch u] })

/-- A call of `util.FetchObject(u, &services)`. -/
def FetchObject {σ : Type} (env : Env σ) (u : String) (st : State σ) :
    Except Error (List (Option Service)) × State σ :=
  ((env.FetchObject u st.world).1,
    { world := (env.FetchObject u st.world).2, calls := st.calls ++ [Call.FetchObject u] })

end util

namespace reifier

/-- A call of `c.reifier.RemoveServiceBinding(name)`. -/
def RemoveServiceBinding {σ : Type} (env : Env σ) (name : String) (st : State σ) :
    Option Error × State σ :=
  ((env.RemoveServiceBinding name st.world).1,
    { world := (env.RemoveServiceBinding name st.world).2,
      calls := st.calls ++ [Call.RemoveServiceBinding name] })

/-- A call of `c.reifier.RemoveServiceInstance(name)`. -/
def RemoveServiceInstance {σ : Type} (env : Env σ) (name : String) (st : State σ) :
    Option Error × State σ :=
  ((env.RemoveServiceInstance name st.world).1,
    { world := (env.RemoveServiceInstance name st.world).2,
      calls := st.calls ++ [Call.RemoveServiceInstance name] })

end reifier

/-! ## The controller (`controller.go`) -/

def catalogFmt : String := "http://%s:%d/services"

/-- Go `k8sController`, without the two maps that are never read or written. -/
structure k8sController where
  registryHost : String
  registryPort : Int

/-- The registry URL of line 75: `fmt.Sprintf(catalogFmt, c.registryHost,
c.registryPort)`. -/
def k8sController.catalogURL (c : k8sController) : String :=
  fmt.Sprintf catalogFmt [fmt.Arg.str c.registryHost, fmt.Arg.int c.registryPort]

/-- Go `getTypesFromPlan` (lines 202-221). An unchecked type assertion
`x.(T)` on a value that is not a `T` is a run-time panic. -/
def getTypesFromPlan (k : MetadataKeys) (p : ServicePlan) : Result Types :=
  let err : Error := fmt.Sprintf "Did not find usable types for plan %s" [fmt.Arg.str p.ID]
  match p.Metadata with
  | Value.nil => Result.ret none (some err)
  | Value.map m =>
    match m.lookup k.InstanceType with
    | none => Result.ret none (some err)
    | some iv =>
      match m.lookup k.BindingType with
      | none =>
        match iv with
        | Value.string i => Result.ret (some { Instance := i, Binding := "" }) none
        | _ => Result.panic
      | some bv =>
        match iv with
        | Value.string i =>
          match bv with
          | Value.string b => Result.ret (some { Instance := i, Binding := b }) none
          | _ => Result.panic
        | _ => Result.panic
  | _ => Result.panic

/-- Go `getSchema` (lines 243-254). -/
def getSchema {σ : Type} (env : Env σ) (t : String) (st : State σ) :
    Result Schema × State σ :=
  if strings.HasPrefix t "gs://" then
    let u := strings.Replace t "gs://" "https://storage.googleapis.com/" 1
    let u := u ++ ".schema"
    match util.Fetch env u st with
    | (Except.error err, st1) => (Result.ret none (some err), st1)
    | (Except.ok schema, st1) => (Result.ret (some { Inputs := schema }) none, st1)
  else
    (Result.ret none (some "invalid url format; gs://... is required"), st)

/-- Go `k8sController.getSchemas` (lines 223-241). Dereferencing a `nil`
pointer (`*is`, `*bs`) is a run-time panic. -/
def k8sController.getSchemas {σ : Type} (env : Env σ) (t : Types) (st : State σ) :
    Result Schemas × State σ :=
  match getSchema env t.Instance st with
  | (Result.panic, st1) => (Result.panic, st1)
  | (Result.ret _ (some err), st1) => (Result.ret none (some err), st1)
  | (Result.ret none none, st1) => (Result.panic, st1)
  | (Result.ret (some is) none, st1) =>
    let s : Schemas := { Instance := is, Binding := { Inputs := "" } }
    if t.Binding ≠ "" then
      match getSchema env t.Binding st1 with
      | (Result.panic, st2) => (Result.panic, st2)
      | (Result.ret _ (some err), st2) => (Result.ret none (some err), st2)
      | (Result.ret none none, st2) => (Result.panic, st2)
      | (Result.ret (some bs) none, st2) =>
        (Result.ret (some { s with Binding := bs }) none, st2)
    else
      (Result.ret (some s) none, st1)

/-- The inner loop of `Catalog` (lines 87-101) over the plans of one service:
`Except.error r` is an early exit of `Catalog` with outcome `r`, `Except.ok`
carries the plans after the loop, each with its `Schemas` assigned. -/
def plansLoop {σ : Type} (env : Env σ) (k : MetadataKeys) :
    List ServicePlan → State σ → Except (Result brokerapi.Catalog) (List ServicePlan) × State σ
  | [], st => (Except.ok [], st)
  | sp :: rest, st =>
    match getTypesFromPlan k sp with
    | Result.panic => (Except.error Result.panic, st)
    | Result.ret _ (some err) => (Except.error (Result.ret none (some err)), st)
    | Result.ret none none => (Except.error Result.panic, st)
    | Result.ret (some types) none =>
      match k8sController.getSchemas env types st with
      | (Result.panic, st1) => (Except.error Result.panic, st1)
      | (Result.ret _ (some err), st1) => (Except.error (Result.ret none (some err)), st1)
      | (Result.ret schemas none, st1) =>
        match plansLoop env k rest st1 with
        | (Except.error r, st2) => (Except.error r, st2)
        | (Except.ok rest1, st2) => (Except.ok ({ sp with Schemas := schemas } :: rest1), st2)

/-- The outer loop of `Catalog` (lines 86-102) over the services; ranging over
the plans of a `nil` service is a run-time panic. -/
def servicesLoop {σ : Type} (env : Env σ) (k : MetadataKeys) :
    List (Option Service) → State σ →
      Except (Result brokerapi.Catalog) (List (Option Service)) × State σ
  | [], st => (Except.ok [], st)
  | none :: _, st => (Except.error Result.panic, st)
  | some s :: rest, st =>
    match plansLoop env k s.Plans st with
    | (Except.error r, st1) => (Except.error r, st1)
    | (Except.ok plans, st1) =>
      match servicesLoop env k rest st1 with
      | (Except.error r, st2) => (Except.error r, st2)
      | (Except.ok rest1, st2) => (Except.ok (some { s with Plans := plans } :: rest1), st2)

/-- Go `k8sController.Catalog` (lines 74-104). -/
def k8sController.Catalog {σ : Type} (c : k8sController) (env : Env σ) (k : MetadataKeys)
    (st : State σ) : Result brokerapi.Catalog × State σ :=
  let u := c.catalogURL
  match util.FetchObject env u st with
  | (Except.error err, st1) => (Result.ret none (some err), st1)
  | (Except.ok services, st1) =>
    match servicesLoop env k services st1 with
    | (Except.error r, st2) => (r, st2)
    | (Except.ok services1, st2) => (Result.ret (some { Services := services1 }) none, st2)

/-- Go `k8sController.UnBind` (lines 171-186); the result is the returned
`error`, `none` being `nil`. -/
def k8sController.UnBind {σ : Type} (env : Env σ) (instanceID bindingID : String) (st : State σ) :
    Option Error × State σ :=
  let instanceName := createResourceName instanceID serviceInstance
  let bindingName := createResourceName bindingID serviceBinding
  match reifier.RemoveServiceBinding env instanceName st with
  | (some err, st1) => (some err, st1)
  | (none, st1) =>
    match reifier.RemoveServiceInstance env bindingName st1 with
    | (_, st2) => (none, st2)

/-! ## Catalog aggregation as the specification words it

Relations that follow the specification of the catalog resolver: "for every
plan of every service, resolve Types, then fetch Schemas for each resolved type
(instance schema always, binding schema only if `Types.Binding` is non-empty),
and attach the Schemas result onto that plan". Each relates the state before
a step, the step's input and output, and the state after it. -/

/-- From state `st`, the schemas of `types` are fetched as `sch`, ending in
state `st1`: the instance schema is fetched; when `types.Binding` is empty
nothing more happens and `sch.Binding` is the empty schema, otherwise the
binding schema is fetched next. -/
def SchemasFetched {σ : Type} (env : Env σ) (types : Types) (st : State σ)
    (sch : Schemas) (st1 : State σ) : Prop :=
  ∃ is st0, getSchema env types.Instance st = (Result.ret (some is) none, st0) ∧
    ((types.Binding = "" ∧ sch = { Instance := is, Binding := { Inputs := "" } } ∧ st1 = st0) ∨
     (types.Binding ≠ "" ∧
        ∃ bs, getSchema env types.Binding st0 = (Result.ret (some bs) none, st1) ∧
          sch = { Instance := is, Binding := bs }))

/-- From state `st`, every plan of `plans` is resolved in order, giving `out`
(the same plans, each with its fetched schemas attached) and state `st1`. -/
def PlansResolved {σ : Type} (env : Env σ) (k : MetadataKeys) :
    List ServicePlan → State σ → List ServicePlan → State σ → Prop
  | [], st, out, st1 => out = [] ∧ st1 = st
  | p :: ps, st, out, st1 =>
    ∃ types sch st0 qs,
      getTypesFromPlan k p = Result.ret (some types) none ∧
      SchemasFetched env types st sch st0 ∧
      out = { p with Schemas := some sch } :: qs ∧
      PlansResolved env k ps st0 qs st1

/-- From state `st`, every plan of every service of `services` is resolved in
order, giving `out` (the same services, each with its resolved plans) and state
`st1`. No service is `nil`. -/
def ServicesResolved {σ : Type} (env : Env σ) (k : MetadataKeys) :
    List (Option Service) → State σ → List (Option Service) → State σ → Prop
  | [], st, out, st1 => out = [] ∧ st1 = st
  | none :: _, _, _, _ => False
  | some s :: ss, st, out, st1 =>
    ∃ plans st0 rest,
      PlansResolved env k s.Plans st plans st0 ∧
      out = some { s with Plans := plans } :: rest ∧
      ServicesResolved env k ss st0 rest st1

/-- Resolving plan `p` from state `st` returns the error `e`: either
`getTypesFromPlan` returns it, or the types resolve and `getSchemas` returns
it. -/
def PlanFails {σ : Type} (env : Env σ) (k : MetadataKeys) (p : ServicePlan)
    (st : State σ) (e : Error) : Prop :=
  (∃ v, getTypesFromPlan k p = Result.ret v (some e)) ∨
  (∃ types v, getTypesFromPlan k p = Result.ret (some types) none ∧
    (k8sController.getSchemas env types st).1 = Result.ret v (some e))

/-- The service with the `Schemas` of every plan cleared: what of a catalog
entry does not depend on schema resolution. -/
def eraseSchemas (os : Option Service) : Option Service :=
  os.map fun s => { s with Plans := s.Plans.map fun p => { p with Schemas := none } }

/-! ## The binding store adapter (`storage_binding.go`) -/

namespace watch

/-- Modelled from the spec: the resource kinds of package `watch`, not under the
sources ("ResourceKind (enum): {ServiceInstance, ServiceBinding}"). -/
inductive ResourceType where
  | ServiceInstance
  | ServiceBinding
  deriving DecidableEq, Repr

/-- The string constants `watch.ServiceBindingKind` and `watch.FullAPIVersion`,
declared outside the sources. -/
structure Consts where
  ServiceBindingKind : String
  FullAPIVersion : String

end watch

namespace servicecatalog

/-- Modelled from the spec: `servicecatalog.Binding`, not under the sources ("an
internal record with at least a unique Name, stored in the cluster object store
tagged with a fixed resource kind and API version"). -/
structure Binding where
  Name : String
  Kind : String
  APIVersion : String
  deriving DecidableEq, Repr

end servicecatalog

namespace tpr

open servicecatalog (Binding)

/-- A `runtime.Unstructured` object: its name (set by `SetName`) and its
content. -/
structure Unstructured where
  Name : String
  Object : Value

/-- The operations a resource client is asked for. -/
inductive StoreOp where
  | Create
  | Update
  | List
  deriving DecidableEq, Repr

/-- A call on the resource client obtained by
`watcher.GetResourceClient(kind, ns)`. -/
structure StoreCall where
  op : StoreOp
  kind : watch.ResourceType
  ns : String
  deriving DecidableEq, Repr

/-- The external collaborators of the adapter over a world state `σ`: the two
conversions of package `util` and the operations of the resource client for a
`(kind, namespace)` pair. -/
structure Store (σ : Type) where
  SCObjectToTPRObject : Binding → Except Error Unstructured
  TPRObjectToSCObject : Unstructured → Except Error Binding
  Create : watch.ResourceType → String → Unstructured → σ → Option Error × σ
  Update : watch.ResourceType → String → Unstructured → σ → Option Error × σ
  List : watch.ResourceType → String → σ → Except Error (List Unstructured) × σ

/-- World state together with the log of the store calls issued so far. -/
structure StoreState (σ : Type) where
  world : σ
  calls : List StoreCall

/-- Go `tprStorageBinding`; the watcher is the `Store` passed to each method. -/
structure tprStorageBinding where
  ns : String

/-- Go `newTPRStorageBinding`. -/
def newTPRStorageBinding (ns : String) : tprStorageBinding :=
  { ns := ns }

/-- Go `tprStorageBinding.Update` (lines 39-55); it returns `(in, err)`. -/
def tprStorageBinding.Update {σ : Type} (_t : tprStorageBinding) (w : watch.Consts)
    (env : Store σ) (in0 : Binding) (st : StoreState σ) : Result Binding × StoreState σ :=
  let in1 : Binding := { in0 with Kind := w.ServiceBindingKind, APIVersion := w.FullAPIVersion }
  match env.SCObjectToTPRObject in1 with
  | Except.error err => (Result.ret none (some err), st)
  | Except.ok tprObj =>
    let tprObj := { tprObj with Name := in1.Name }
    let r := env.Update watch.ResourceType.ServiceBinding "default" tprObj st.world
    (Result.ret (some in1) r.1,
      { world := r.2,
        calls := st.calls ++ [⟨StoreOp.Update, watch.ResourceType.ServiceBinding, "default"⟩] })

/-- The conversion loop of `List` (lines 64-72): `Except.error err` is the
early `return nil, err`. -/
def convertItems {σ : Type} (env : Store σ) : List Unstructured → Except Error (List Binding)
  | [] => Except.ok []
  | i :: rest =>
    match env.TPRObjectToSCObject i with
    | Except.error err => Except.error err
    | Except.ok tmp =>
      match convertItems env rest with
      | Except.error err => Except.error err
      | Except.ok ret => Except.ok (tmp :: ret)

/-- Go `tprStorageBinding.List` (lines 58-74). -/
def tprStorageBinding.List {σ : Type} (t : tprStorageBinding) (env : Store σ)
    (st : StoreState σ) : Result (List Binding) × StoreState σ :=
  let r := env.List watch.ResourceType.ServiceBinding t.ns st.world
  let st1 : StoreState σ :=
    { world := r.2,
      calls := st.calls ++ [⟨StoreOp.List, watch.ResourceType.ServiceBinding, t.ns⟩] }
  match r.1 with
  | Except.error err => (Result.ret none (some err), st1)
  | Except.ok items =>
    match convertItems env items with
    | Except.error err => (Result.ret none (some err), st1)
    | Except.ok ret => (Result.ret (some ret) none, st1)

/-- Go `tprStorageBinding.Create` (lines 80-96); it returns `(in, err)`. -/
def tprStorageBinding.Create {σ : Type} (t : tprStorageBinding) (w : watch.Consts)
    (env : Store σ) (in0 : Binding) (st : StoreState σ) : Result Binding × StoreState σ :=
  let in1 : Binding := { in0 with Kind := w.ServiceBindingKind, APIVersion := w.FullAPIVersion }
  match env.SCObjectToTPRObject in1 with
  | Except.error err => (Result.ret none (some err), st)
  | Except.ok tprObj =>
    let tprObj := { tprObj with Name := in1.Name }
    let r := env.Create watch.ResourceType.ServiceBinding t.ns tprObj st.world
    (Result.ret (some in1) r.1,
      { world := r.2,
        calls := st.calls ++ [⟨StoreOp.Create, watch.ResourceType.ServiceBinding, t.ns⟩] })

end tpr

/-! ## Sample data -/

def sampleKeys : MetadataKeys :=
  { InstanceType := "instanceType", BindingType := "bindingType" }

def sampleController : k8sController :=
  { registryHost := "registry", registryPort := 8001 }

/-- A plan with only the instance-type key. -/
def planInstanceOnly : ServicePlan :=
  { ID := "plan-a",
    Metadata := Value.map [("instanceType", Value.string "gs://bucket/chart")],
    Schemas := none }

/-- A plan with both keys. -/
def planBindable : ServicePlan :=
  { ID := "plan-b",
    Metadata := Value.map [("instanceType", Value.string "gs://bucket/chart"),
                           ("bindingType", Value.string "gs://bucket/bind")],
    Schemas := none }

/-- A plan whose metadata lacks the instance-type key. -/
def planNoInstanceKey : ServicePlan :=
  { ID := "plan-c",
    Metadata := Value.map [("bindingType", Value.string "gs://bucket/bind")],
    Schemas := none }

/-- A plan whose metadata is a string, not a map. -/
def planStringMetadata : ServicePlan :=
  { ID := "plan-d", Metadata := Value.string "gs://bucket/chart", Schemas := none }

def serviceGood : Service :=
  { ID := "svc-1", Name := "good", Plans := [planInstanceOnly, planBindable] }

def serviceNoKey : Service :=
  { ID := "svc-2", Name := "nokey", Plans := [planNoInstanceKey] }

def serviceWrongShape : Service :=
  { ID := "svc-3", Name := "wrongshape", Plans := [planStringMetadata] }

/-- A registry answering `services`, a blob store answering every fetch with
the text `"schema of <url>"`, and a reifier whose binding removal succeeds and
whose instance removal fails. The world state counts the calls. -/
def sampleEnv (services : List (Option Service)) : Env Nat :=
  { Fetch := fun u n => (Except.ok ("schema of " ++ u), n + 1)
    FetchObject := fun _ n => (Except.ok services, n + 1)
    RemoveServiceBinding := fun _ n => (none, n + 1)
    RemoveServiceInstance := fun _ n => (some "no such proxy", n + 1) }

/-- A registry whose fetch fails. -/
def sampleEnvDown : Env Nat :=
  { Fetch := fun u n => (Except.ok ("schema of " ++ u), n + 1)
    FetchObject := fun _ n => (Except.error "registry unreachable", n + 1)
    RemoveServiceBinding := fun _ n => (some "no such binding", n + 1)
    RemoveServiceInstance := fun _ n => (none, n + 1) }

/-- A blob store whose every fetch fails. -/
def sampleEnvFetchDown : Env Nat :=
  { Fetch := fun _ n => (Except.error "404 Not Found", n + 1)
    FetchObject := fun _ n => (Except.ok [some serviceGood], n + 1)
    RemoveServiceBinding := fun _ n => (none, n + 1)
    RemoveServiceInstance := fun _ n => (none, n + 1) }

def sampleState : State Nat :=
  { world := 0, calls := [] }

/-- The plans of `serviceGood` after resolution against `sampleEnv`. -/
def serviceGoodResolved : Service :=
  { ID := "svc-1", Name := "good",
    Plans :=
      [{ planInstanceOnly with
          Schemas := some
            { Instance := { Inputs := "schema of https://storage.googleapis.com/bucket/chart.schema" },
              Binding := { Inputs := "" } } },
       { planBindable with
          Schemas := some
            { Instance := { Inputs := "schema of https://storage.googleapis.com/bucket/chart.schema" },
              Binding := { Inputs := "schema of https://storage.googleapis.com/bucket/bind.schema" } } }] }

/-- A store whose conversions and calls all succeed. -/
def sampleStore : tpr.Store Nat :=
  { SCObjectToTPRObject := fun b => Except.ok { Name := "", Object := Value.map [("kind", Value.string b.Kind)] }
    TPRObjectToSCObject := fun o => Except.ok { Name := o.Name, Kind := "", APIVersion := "" }
    Create := fun _ _ _ n => (none, n + 1)
    Update := fun _ _ _ n => (none, n + 1)
    List := fun _ _ n => (Except.ok [], n + 1) }

def sampleConsts : watch.Consts :=
  { ServiceBindingKind := "Binding", FullAPIVersion := "catalog.k8s.io/v1alpha1" }

def sampleStoreState : tpr.StoreState Nat :=
  { world := 0, calls := [] }

def sampleBinding : servicecatalog.Binding :=
  { Name := "b1", Kind := "", APIVersion := "" }

/-! ## Lemmas on the library functions -/

namespace strings

theorem replaceFuel_hyphen (fuel : Nat) (n : Int) (s : List Char)
    (hn : n < 0) (hf : s.length < fuel) :
    replaceFuel ['-'] [] fuel n s = s.filter (fun c => c ≠ '-') := by
  induction fuel generalizing n s with
  | zero => omega
  | succ fuel ih =>
    have hn0 : n ≠ 0 := by omega
    cases s with
    | nil => simp [replaceFuel, hn0]
    | cons c cs =>
      have hlen : cs.length < fuel := by simpa using hf
      by_cases hc : c = '-'
      · subst hc
        simp [replaceFuel, hn0, List.isPrefixOf, ih (n - 1) cs (by omega) hlen]
      · have hc2 : ('-' == c) = false := by
          simpa using fun h => hc h.symm
        simp [replaceFuel, hn0, List.isPrefixOf, hc, hc2, ih n cs hn hlen]

theorem Replace_hyphen (id : String) :
    Replace id "-" "" (-1) = stripHyphens id := by
  unfold Replace stripHyphens
  congr 1
  exact replaceFuel_hyphen _ _ _ (by decide) (Nat.lt_succ_self _)

end strings

theorem Sprintf_instanceNameFmt (arg : String) :
    fmt.Sprintf instanceNameFmt [fmt.Arg.str arg] = "cf-i-" ++ arg := by
  apply String.ext
  simp [fmt.Sprintf, instanceNameFmt, fmt.sprintfChars]

theorem Sprintf_bindingNameFmt (arg : String) :
    fmt.Sprintf bindingNameFmt [fmt.Arg.str arg] = "cf-b-" ++ arg := by
  apply String.ext
  simp [fmt.Sprintf, bindingNameFmt, fmt.sprintfChars]

theorem createResourceName_instance (id : String) :
    createResourceName id serviceInstance = "cf-i-" ++ stripHyphens id := by
  simp [createResourceName, strings.Replace_hyphen, Sprintf_instanceNameFmt]

theorem createResourceName_binding (id : String) :
    createResourceName id serviceBinding = "cf-b-" ++ stripHyphens id := by
  have h : serviceBinding ≠ serviceInstance := by decide
  simp [createResourceName, strings.Replace_hyphen, Sprintf_bindingNameFmt, h]

theorem string_append_left_cancel_iff (p a b : String) : p ++ a = p ++ b ↔ a = b := by
  constructor
  · intro h
    have h2 := congrArg String.data h
    simp only [String.data_append] at h2
    exact String.ext (List.append_cancel_left h2)
  · rintro rfl; rfl

/-! ## Theorems on resource naming -/

/-- C1: `createResourceName id t` is `"cf-i-"` followed by `id` without its
hyphens for `serviceInstance`, `"cf-b-"` followed by `id` without its hyphens
for `serviceBinding`, and the empty string for every other kind value; and
`createResourceName "abc-123-def" serviceInstance = "cf-i-abc123def"`. -/
theorem createResourceName_spec (id : String) (t : resourceType) :
    (t = serviceInstance → createResourceName id t = "cf-i-" ++ stripHyphens id) ∧
    (t = serviceBinding → createResourceName id t = "cf-b-" ++ stripHyphens id) ∧
    (t ≠ serviceInstance → t ≠ serviceBinding → createResourceName id t = "") ∧
    createResourceName "abc-123-def" serviceInstance = "cf-i-abc123def" := by
  refine ⟨?_, ?_, ?_, ?_⟩
  · rintro rfl; exact createResourceName_instance id
  · rintro rfl; exact createResourceName_binding id
  · intro h1 h2; simp [createResourceName, h1, h2]
  · rw [createResourceName_instance]; decide

theorem createResourceName_spec_witness :
    createResourceName "abc-123-def" 0 = "cf-i-" ++ stripHyphens "abc-123-def" ∧
    createResourceName "abc-123-def" 1 = "cf-b-" ++ stripHyphens "abc-123-def" ∧
    createResourceName "abc-123-def" 7 = "" ∧
    stripHyphens "abc-123-def" = "abc123def" :=
  ⟨(createResourceName_spec "abc-123-def" 0).1 rfl,
   (createResourceName_spec "abc-123-def" 1).2.1 rfl,
   (createResourceName_spec "abc-123-def" 7).2.2.1 (by decide) (by decide),
   by decide⟩

/-- C2: for a known kind (`serviceInstance` or `serviceBinding`), two
identifiers get the same resource name exactly when they are equal after all
hyphens are removed. -/
theorem createResourceName_eq_iff (id1 id2 : String) (t : resourceType)
    (ht : t = serviceInstance ∨ t = serviceBinding) :
    createResourceName id1 t = createResourceName id2 t ↔
      stripHyphens id1 = stripHyphens id2 := by
  rcases ht with rfl | rfl
  · rw [createResourceName_instance, createResourceName_instance,
      string_append_left_cancel_iff]
  · rw [createResourceName_binding, createResourceName_binding,
      string_append_left_cancel_iff]

theorem createResourceName_eq_iff_witness :
    (createResourceName "a-b-c" serviceInstance = createResourceName "ab-c" serviceInstance ↔
      stripHyphens "a-b-c" = stripHyphens "ab-c") ∧
    stripHyphens "a-b-c" = stripHyphens "ab-c" ∧
    (createResourceName "a-b" serviceBinding = createResourceName "a-c" serviceBinding ↔
      stripHyphens "a-b" = stripHyphens "a-c") ∧
    stripHyphens "a-b" ≠ stripHyphens "a-c" :=
  ⟨createResourceName_eq_iff "a-b-c" "ab-c" serviceInstance (Or.inl rfl), by decide,
   createResourceName_eq_iff "a-b" "a-c" serviceBinding (Or.inr rfl), by decide⟩

/-! ## Type resolution -/

theorem Sprintf_notFound (id : String) :
    fmt.Sprintf "Did not find usable types for plan %s" [fmt.Arg.str id] =
      "Did not find usable types for plan " ++ id := by
  apply String.ext
  simp [fmt.Sprintf, fmt.sprintfChars]

/-- C3: `getTypesFromPlan` fails with the "Did not find usable types for plan"
error when the metadata is `nil` or is a map without the instance-type key; for
a map holding the instance-type key with string value `v` and no binding-type
key it returns `Types{Instance: v, Binding: ""}` and no error. -/
theorem getTypesFromPlan_spec (k : MetadataKeys) (p : ServicePlan) :
    (p.Metadata = Value.nil →
      getTypesFromPlan k p =
        Result.ret none (some ("Did not find usable types for plan " ++ p.ID))) ∧
    (∀ m, p.Metadata = Value.map m → m.lookup k.InstanceType = none →
      getTypesFromPlan k p =
        Result.ret none (some ("Did not find usable types for plan " ++ p.ID))) ∧
    (∀ m v, p.Metadata = Value.map m →
      m.lookup k.InstanceType = some (Value.string v) → m.lookup k.BindingType = none →
      getTypesFromPlan k p = Result.ret (some { Instance := v, Binding := "" }) none) := by
  refine ⟨?_, ?_, ?_⟩
  · intro h
    simp [getTypesFromPlan, h, Sprintf_notFound]
  · intro m h hi
    simp [getTypesFromPlan, h, hi, Sprintf_notFound]
  · intro m v h hi hb
    simp [getTypesFromPlan, h, hi, hb]

theorem getTypesFromPlan_spec_witness :
    getTypesFromPlan ⟨"instanceType", "bindingType"⟩
        { ID := "p1", Metadata := Value.nil, Schemas := none } =
      Result.ret none (some ("Did not find usable types for plan " ++ "p1")) ∧
    getTypesFromPlan ⟨"instanceType", "bindingType"⟩
        { ID := "p2", Metadata := Value.map [("bindingType", Value.string "gs://b/bind")],
          Schemas := none } =
      Result.ret none (some ("Did not find usable types for plan " ++ "p2")) ∧
    getTypesFromPlan ⟨"instanceType", "bindingType"⟩
        { ID := "p3", Metadata := Value.map [("instanceType", Value.string "gs://bucket/chart")],
          Schemas := none } =
      Result.ret (some { Instance := "gs://bucket/chart", Binding := "" }) none :=
  ⟨(getTypesFromPlan_spec ⟨"instanceType", "bindingType"⟩
      { ID := "p1", Metadata := Value.nil, Schemas := none }).1 rfl,
   (getTypesFromPlan_spec ⟨"instanceType", "bindingType"⟩
      { ID := "p2", Metadata := Value.map [("bindingType", Value.string "gs://b/bind")],
        Schemas := none }).2.1 _ rfl rfl,
   (getTypesFromPlan_spec ⟨"instanceType", "bindingType"⟩
      { ID := "p3", Metadata := Value.map [("instanceType", Value.string "gs://bucket/chart")],
        Schemas := none }).2.2 _ _ rfl rfl rfl⟩

/-- C4, as stated, fails: on metadata that is a string rather than a map, on
an instance-type value that is a number, and on a binding-type value that is a
number, `getTypesFromPlan` panics and so does not return the not-found
error. -/
theorem getTypesFromPlan_wrong_shape_counterexample :
    getTypesFromPlan ⟨"instanceType", "bindingType"⟩
        { ID := "p", Metadata := Value.string "gs://bucket/chart", Schemas := none } ≠
      Result.ret none (some "Did not find usable types for plan p") ∧
    getTypesFromPlan ⟨"instanceType", "bindingType"⟩
        { ID := "p", Metadata := Value.map [("instanceType", Value.float64 0)],
          Schemas := none } ≠
      Result.ret none (some "Did not find usable types for plan p") ∧
    getTypesFromPlan ⟨"instanceType", "bindingType"⟩
        { ID := "p",
          Metadata := Value.map [("instanceType", Value.string "gs://bucket/chart"),
                                 ("bindingType", Value.float64 0)],
          Schemas := none } ≠
      Result.ret none (some "Did not find usable types for plan p") := by
  refine ⟨?_, ?_, ?_⟩ <;> decide

/-- C4, amended: metadata that is present but not a string-keyed map, an
instance-type value that is not a string, and (beside a string instance-type
value) a binding-type value that is not a string each make `getTypesFromPlan`
panic; a map without the instance-type key yields the not-found error whatever
its binding-type value is. -/
theorem getTypesFromPlan_wrong_shape (k : MetadataKeys) (p : ServicePlan) :
    (p.Metadata ≠ Value.nil → (∀ m, p.Metadata ≠ Value.map m) →
      getTypesFromPlan k p = Result.panic) ∧
    (∀ m iv, p.Metadata = Value.map m → m.lookup k.InstanceType = some iv →
      (∀ s, iv ≠ Value.string s) → getTypesFromPlan k p = Result.panic) ∧
    (∀ m i bv, p.Metadata = Value.map m → m.lookup k.InstanceType = some (Value.string i) →
      m.lookup k.BindingType = some bv → (∀ s, bv ≠ Value.string s) →
      getTypesFromPlan k p = Result.panic) ∧
    (∀ m, p.Metadata = Value.map m → m.lookup k.InstanceType = none →
      getTypesFromPlan k p =
        Result.ret none (some ("Did not find usable types for plan " ++ p.ID))) := by
  refine ⟨?_, ?_, ?_, ?_⟩
  · intro h1 h2
    unfold getTypesFromPlan
    cases hm : p.Metadata <;> simp_all
  · intro m iv h hi hs
    unfold getTypesFromPlan
    simp only [h, hi]
    cases hb : m.lookup k.BindingType <;> cases iv <;> simp_all
  · intro m i bv h hi hb hs
    unfold getTypesFromPlan
    simp only [h, hi, hb]
  · intro m h hi
    simp [getTypesFromPlan, h, hi, Sprintf_notFound]

theorem getTypesFromPlan_wrong_shape_witness :
    getTypesFromPlan ⟨"instanceType", "bindingType"⟩
        { ID := "p", Metadata := Value.slice [], Schemas := none } = Result.panic ∧
    getTypesFromPlan ⟨"instanceType", "bindingType"⟩
        { ID := "p", Metadata := Value.map [("instanceType", Value.nil)],
          Schemas := none } = Result.panic ∧
    getTypesFromPlan ⟨"instanceType", "bindingType"⟩
        { ID := "p",
          Metadata := Value.map [("instanceType", Value.string "gs://bucket/chart"),
                                 ("bindingType", Value.bool true)],
          Schemas := none } = Result.panic ∧
    getTypesFromPlan ⟨"instanceType", "bindingType"⟩
        { ID := "p", Metadata := Value.map [("bindingType", Value.bool true)],
          Schemas := none } =
      Result.ret none (some ("Did not find usable types for plan " ++ "p")) :=
  ⟨(getTypesFromPlan_wrong_shape ⟨"instanceType", "bindingType"⟩
      { ID := "p", Metadata := Value.slice [], Schemas := none }).1
      (by simp) (by simp),
   (getTypesFromPlan_wrong_shape ⟨"instanceType", "bindingType"⟩
      { ID := "p", Metadata := Value.map [("instanceType", Value.nil)],
        Schemas := none }).2.1 _ _ rfl rfl (by simp),
   (getTypesFromPlan_wrong_shape ⟨"instanceType", "bindingType"⟩
      { ID := "p",
        Metadata := Value.map [("instanceType", Value.string "gs://bucket/chart"),
                               ("bindingType", Value.bool true)],
        Schemas := none }).2.2.1 _ _ _ rfl rfl rfl (by simp),
   (getTypesFromPlan_wrong_shape ⟨"instanceType", "bindingType"⟩
      { ID := "p", Metadata := Value.map [("bindingType", Value.bool true)],
        Schemas := none }).2.2.2 _ rfl rfl⟩

/-! ## Schema fetching -/

namespace strings

theorem replaceFuel_zero (old new : List Char) (fuel : Nat) (s : List Char) :
    replaceFuel old new fuel 0 s = s := by
  cases fuel <;> simp [replaceFuel]

theorem replaceFuel_one_of_append (old new rest : List Char) (fuel : Nat) :
    replaceFuel old new (fuel + 1) 1 (old ++ rest) = new ++ rest := by
  have hp : old.isPrefixOf (old ++ rest) = true :=
    List.isPrefixOf_iff_prefix.mpr (List.prefix_append old rest)
  simp [replaceFuel, hp, replaceFuel_zero]

theorem Replace_one_of_append (old new rest : String) :
    Replace (old ++ rest) old new 1 = new ++ rest := by
  apply String.ext
  simp only [Replace, String.data_append]
  exact replaceFuel_one_of_append _ _ _ _

theorem HasPrefix_iff (s pre : String) :
    HasPrefix s pre = true ↔ ∃ rest : String, s = pre ++ rest := by
  unfold HasPrefix
  rw [List.isPrefixOf_iff_prefix]
  constructor
  · rintro ⟨r, hr⟩
    exact ⟨⟨r⟩, String.ext (by simp [hr])⟩
  · rintro ⟨r, rfl⟩
    exact ⟨r.data, by simp⟩

end strings

theorem getSchema_of_gs {σ : Type} (env : Env σ) (rest : String) (st : State σ) :
    getSchema env ("gs://" ++ rest) st =
      match util.Fetch env ("https://storage.googleapis.com/" ++ rest ++ ".schema") st with
      | (Except.error err, st1) => (Result.ret none (some err), st1)
      | (Except.ok schema, st1) => (Result.ret (some { Inputs := schema }) none, st1) := by
  have hp : strings.HasPrefix ("gs://" ++ rest) "gs://" = true :=
    (strings.HasPrefix_iff _ _).mpr ⟨rest, rfl⟩
  simp only [getSchema, hp, strings.Replace_one_of_append, if_true]

theorem getSchema_of_not_gs {σ : Type} (env : Env σ) (t : String) (st : State σ)
    (h : ∀ rest : String, t ≠ "gs://" ++ rest) :
    getSchema env t st =
      (Result.ret none (some "invalid url format; gs://... is required"), st) := by
  have hp : strings.HasPrefix t "gs://" = false := by
    cases hb : strings.HasPrefix t "gs://"
    · rfl
    · obtain ⟨r, hr⟩ := (strings.HasPrefix_iff _ _).mp hb
      exact absurd hr (h r)
  simp [getSchema, hp]

theorem getSchema_of_gs_calls {σ : Type} (env : Env σ) (rest : String) (st : State σ) :
    (getSchema env ("gs://" ++ rest) st).2.calls =
      st.calls ++ [Call.Fetch ("https://storage.googleapis.com/" ++ rest ++ ".schema")] := by
  rw [getSchema_of_gs]
  unfold util.Fetch
  cases (env.Fetch ("https://storage.googleapis.com/" ++ rest ++ ".schema") st.world).1 <;> rfl

/-- C5: for every locator that does not start with `"gs://"`, `getSchema`
returns the invalid-url-format error and leaves the state, call log included,
as it was (no `util.Fetch`); for every locator that starts with `"gs://"` it
adds exactly one `util.Fetch` call to the log. -/
theorem getSchema_fetch_gate {σ : Type} (env : Env σ) (t : String) (st : State σ) :
    ((∀ rest : String, t ≠ "gs://" ++ rest) →
      getSchema env t st =
        (Result.ret none (some "invalid url format; gs://... is required"), st)) ∧
    ((∃ rest : String, t = "gs://" ++ rest) →
      ∃ u, (getSchema env t st).2.calls = st.calls ++ [Call.Fetch u]) := by
  refine ⟨getSchema_of_not_gs env t st, ?_⟩
  rintro ⟨rest, rfl⟩
  exact ⟨_, getSchema_of_gs_calls env rest st⟩

theorem getSchema_fetch_gate_witness :
    getSchema (sampleEnv []) "http://bucket/chart" sampleState =
      (Result.ret none (some "invalid url format; gs://... is required"), sampleState) ∧
    ∃ u, (getSchema (sampleEnv []) "gs://bucket/chart" sampleState).2.calls =
      sampleState.calls ++ [Call.Fetch u] :=
  ⟨(getSchema_fetch_gate (sampleEnv []) "http://bucket/chart" sampleState).1
      (fun rest h => by
        have h2 := congrArg String.data h
        simp at h2),
   (getSchema_fetch_gate (sampleEnv []) "gs://bucket/chart" sampleState).2
      ⟨"bucket/chart", by decide⟩⟩

/-- C6: `getSchema ("gs://" ++ rest)` issues exactly one call, the fetch of
`"https://storage.googleapis.com/" ++ rest ++ ".schema"`; when that fetch
succeeds with text `schema` it returns `Schema{Inputs: schema}` and no error,
and when it fails it returns the fetch error. With `rest = "bucket/chart"` the
URL is `"https://storage.googleapis.com/bucket/chart.schema"`. -/
theorem getSchema_rewrite {σ : Type} (env : Env σ) (rest : String) (st : State σ) :
    (getSchema env ("gs://" ++ rest) st).2.calls =
      st.calls ++ [Call.Fetch ("https://storage.googleapis.com/" ++ rest ++ ".schema")] ∧
    (∀ schema,
      (env.Fetch ("https://storage.googleapis.com/" ++ rest ++ ".schema") st.world).1 =
        Except.ok schema →
      (getSchema env ("gs://" ++ rest) st).1 = Result.ret (some { Inputs := schema }) none) ∧
    (∀ err,
      (env.Fetch ("https://storage.googleapis.com/" ++ rest ++ ".schema") st.world).1 =
        Except.error err →
      (getSchema env ("gs://" ++ rest) st).1 = Result.ret none (some err)) ∧
    (getSchema env "gs://bucket/chart" st).2.calls =
      st.calls ++ [Call.Fetch "https://storage.googleapis.com/bucket/chart.schema"] := by
  refine ⟨getSchema_of_gs_calls env rest st, ?_, ?_, ?_⟩
  · intro schema h
    rw [getSchema_of_gs]
    unfold util.Fetch
    simp [h]
  · intro err h
    rw [getSchema_of_gs]
    unfold util.Fetch
    simp [h]
  · exact getSchema_of_gs_calls env "bucket/chart" st

theorem getSchema_rewrite_witness :
    ((sampleEnv []).Fetch
        ("https://storage.googleapis.com/" ++ "bucket/gs://chart" ++ ".schema")
        sampleState.world).1 =
      Except.ok "schema of https://storage.googleapis.com/bucket/gs://chart.schema" ∧
    (getSchema (sampleEnv []) ("gs://" ++ "bucket/gs://chart") sampleState).1 =
      Result.ret
        (some { Inputs := "schema of https://storage.googleapis.com/bucket/gs://chart.schema" })
        none ∧
    (getSchema sampleEnvFetchDown ("gs://" ++ "bucket/chart") sampleState).1 =
      Result.ret none (some "404 Not Found") :=
  ⟨rfl,
   (getSchema_rewrite (sampleEnv []) "bucket/gs://chart" sampleState).2.1
      "schema of https://storage.googleapis.com/bucket/gs://chart.schema" rfl,
   (getSchema_rewrite sampleEnvFetchDown "bucket/chart" sampleState).2.2.1
      "404 Not Found" rfl⟩

/-! ## Catalog aggregation -/

theorem getSchema_shape {σ : Type} (env : Env σ) (t : String) (st : State σ) :
    (∃ e, (getSchema env t st).1 = Result.ret none (some e)) ∨
    (∃ s, (getSchema env t st).1 = Result.ret (some s) none) := by
  unfold getSchema
  split
  · simp only
    split
    · exact Or.inl ⟨_, rfl⟩
    · exact Or.inr ⟨_, rfl⟩
  · exact Or.inl ⟨_, rfl⟩

theorem getSchemas_ok_iff {σ : Type} (env : Env σ) (types : Types) (st : State σ)
    (sch : Schemas) (st1 : State σ) :
    k8sController.getSchemas env types st = (Result.ret (some sch) none, st1) ↔
      SchemasFetched env types st sch st1 := by
  unfold k8sController.getSchemas SchemasFetched
  rcases hi : getSchema env types.Instance st with ⟨ri, sti⟩
  have hsi := getSchema_shape env types.Instance st
  rw [hi] at hsi
  rcases hsi with ⟨e, he⟩ | ⟨is, his⟩
  · simp only at he
    subst he
    simp
  · simp only at his
    subst his
    by_cases hb : types.Binding = ""
    · simp [hb]
      constructor
      · rintro ⟨rfl, rfl⟩; exact ⟨_, ⟨rfl, rfl⟩, rfl⟩
      · rintro ⟨_, ⟨rfl, rfl⟩, rfl⟩; exact ⟨rfl, rfl⟩
    · rcases hbs : getSchema env types.Binding sti with ⟨rb, stb⟩
      have hsb := getSchema_shape env types.Binding sti
      rw [hbs] at hsb
      rcases hsb with ⟨e, he⟩ | ⟨bs, hbs2⟩
      · simp only at he
        subst he
        simp [hb, hbs]
      · simp only at hbs2
        subst hbs2
        simp [hb, hbs]
        constructor
        · rintro ⟨rfl, rfl⟩; exact ⟨_, _, ⟨rfl, rfl⟩, _, hbs, rfl⟩
        · rintro ⟨_, _, ⟨rfl, rfl⟩, bs1, h, rfl⟩
          rw [hbs] at h
          simp only [Prod.mk.injEq, Result.ret.injEq, Option.some.injEq, and_true] at h
          obtain ⟨rfl, rfl⟩ := h
          exact ⟨rfl, rfl⟩

theorem getSchemas_shape {σ : Type} (env : Env σ) (types : Types) (st : State σ) :
    (∃ e, (k8sController.getSchemas env types st).1 = Result.ret none (some e)) ∨
    (∃ s, (k8sController.getSchemas env types st).1 = Result.ret (some s) none) := by
  unfold k8sController.getSchemas
  rcases hi : getSchema env types.Instance st with ⟨ri, sti⟩
  have hsi := getSchema_shape env types.Instance st
  rw [hi] at hsi
  rcases hsi with ⟨e, he⟩ | ⟨is, his⟩
  · simp only at he
    subst he
    exact Or.inl ⟨e, rfl⟩
  · simp only at his
    subst his
    by_cases hb : types.Binding = ""
    · exact Or.inr ⟨{ Instance := is, Binding := { Inputs := "" } }, by simp [hb]⟩
    · rcases hbs : getSchema env types.Binding sti with ⟨rb, stb⟩
      have hsb := getSchema_shape env types.Binding sti
      rw [hbs] at hsb
      rcases hsb with ⟨e, he⟩ | ⟨bs, hbs2⟩
      · simp only at he
        subst he
        exact Or.inl ⟨e, by simp [hb, hbs]⟩
      · simp only at hbs2
        subst hbs2
        exact Or.inr ⟨{ Instance := is, Binding := bs }, by simp [hb, hbs]⟩

theorem plansLoop_ok_iff {σ : Type} (env : Env σ) (k : MetadataKeys)
    (ps : List ServicePlan) (st : State σ) (qs : List ServicePlan) (st1 : State σ) :
    plansLoop env k ps st = (Except.ok qs, st1) ↔ PlansResolved env k ps st qs st1 := by
  induction ps generalizing st qs with
  | nil =>
    simp only [plansLoop, PlansResolved, Prod.mk.injEq, Except.ok.injEq]
    constructor
    · rintro ⟨rfl, rfl⟩; exact ⟨rfl, rfl⟩
    · rintro ⟨rfl, rfl⟩; exact ⟨rfl, rfl⟩
  | cons p ps ih =>
    unfold plansLoop PlansResolved
    cases hT : getTypesFromPlan k p with
    | panic => simp
    | ret v e =>
      cases e with
      | some err => simp
      | none =>
        cases v with
        | none => simp
        | some types =>
          simp only []
          rcases hS : k8sController.getSchemas env types st with ⟨r, sta⟩
          have hsh := getSchemas_shape env types st
          rw [hS] at hsh
          rcases hsh with ⟨e, he⟩ | ⟨sch, hsch⟩
          · simp only at he
            subst he
            simp only [hS, Result.ret.injEq, Option.some.injEq, and_true, false_iff, reduceCtorEq,
              Prod.mk.injEq, false_and, not_exists, not_and]
            rintro types1 sch1 st0 qs1 rfl hf
            rw [← getSchemas_ok_iff, hS] at hf
            simp at hf
          · simp only at hsch
            subst hsch
            rcases hL : plansLoop env k ps sta with ⟨rl, stb⟩
            cases rl with
            | error r =>
              simp only [hS, hL, Result.ret.injEq, Option.some.injEq, and_true, false_iff,
                reduceCtorEq, Prod.mk.injEq, false_and, not_exists, not_and]
              rintro types1 sch1 st0 qs1 rfl hf rfl hr
              rw [← getSchemas_ok_iff, hS] at hf
              simp only [Prod.mk.injEq, Result.ret.injEq, Option.some.injEq, and_true] at hf
              obtain ⟨rfl, rfl⟩ := hf
              rw [← ih, hL] at hr
              simp at hr
            | ok rest1 =>
              simp only [hS, hL, Result.ret.injEq, Option.some.injEq, and_true, Prod.mk.injEq,
                Except.ok.injEq]
              constructor
              · rintro ⟨rfl, rfl⟩
                exact ⟨types, sch, sta, rest1, rfl, (getSchemas_ok_iff _ _ _ _ _).mp hS, rfl,
                  (ih _ _).mp hL⟩
              · rintro ⟨types1, sch1, st0, qs1, rfl, hf, rfl, hr⟩
                rw [← getSchemas_ok_iff, hS] at hf
                simp only [Prod.mk.injEq, Result.ret.injEq, Option.some.injEq, and_true] at hf
                obtain ⟨rfl, rfl⟩ := hf
                rw [← ih, hL] at hr
                simp only [Prod.mk.injEq, Except.ok.injEq] at hr
                obtain ⟨rfl, rfl⟩ := hr
                exact ⟨rfl, rfl⟩

theorem servicesLoop_ok_iff {σ : Type} (env : Env σ) (k : MetadataKeys)
    (ss : List (Option Service)) (st : State σ) (out : List (Option Service))
    (st1 : State σ) :
    servicesLoop env k ss st = (Except.ok out, st1) ↔ ServicesResolved env k ss st out st1 := by
  induction ss generalizing st out with
  | nil =>
    simp only [servicesLoop, ServicesResolved, Prod.mk.injEq, Except.ok.injEq]
    constructor
    · rintro ⟨rfl, rfl⟩; exact ⟨rfl, rfl⟩
    · rintro ⟨rfl, rfl⟩; exact ⟨rfl, rfl⟩
  | cons os ss ih =>
    cases os with
    | none => simp [servicesLoop, ServicesResolved]
    | some s =>
      unfold servicesLoop ServicesResolved
      rcases hP : plansLoop env k s.Plans st with ⟨rp, sta⟩
      cases rp with
      | error r =>
        simp only [reduceCtorEq, Prod.mk.injEq, false_and, false_iff, not_exists, not_and]
        rintro plans st0 rest hp
        rw [← plansLoop_ok_iff, hP] at hp
        simp at hp
      | ok plans =>
        simp only []
        rcases hL : servicesLoop env k ss sta with ⟨rl, stb⟩
        cases rl with
        | error r =>
          simp only [reduceCtorEq, Prod.mk.injEq, false_and, false_iff, not_exists, not_and]
          rintro plans1 st0 rest hp - hr
          rw [← plansLoop_ok_iff, hP] at hp
          simp only [Prod.mk.injEq, Except.ok.injEq] at hp
          obtain ⟨rfl, rfl⟩ := hp
          rw [← ih, hL] at hr
          simp at hr
        | ok rest1 =>
          simp only [Prod.mk.injEq, Except.ok.injEq]
          constructor
          · rintro ⟨rfl, rfl⟩
            exact ⟨plans, sta, rest1, (plansLoop_ok_iff _ _ _ _ _ _).mp hP, rfl, (ih _ _).mp hL⟩
          · rintro ⟨plans1, st0, rest, hp, rfl, hr⟩
            rw [← plansLoop_ok_iff, hP] at hp
            simp only [Prod.mk.injEq, Except.ok.injEq] at hp
            obtain ⟨rfl, rfl⟩ := hp
            rw [← ih, hL] at hr
            simp only [Prod.mk.injEq, Except.ok.injEq] at hr
            obtain ⟨rfl, rfl⟩ := hr
            exact ⟨rfl, rfl⟩

theorem plansLoop_cons_fail {σ : Type} (env : Env σ) (k : MetadataKeys)
    (p : ServicePlan) (ppost : List ServicePlan) (st : State σ) (e : Error)
    (hf : PlanFails env k p st e) :
    (plansLoop env k (p :: ppost) st).1 = Except.error (Result.ret none (some e)) := by
  unfold plansLoop
  rcases hf with ⟨v, hv⟩ | ⟨types, v, ht, hs⟩
  · simp [hv]
  · rcases hS : k8sController.getSchemas env types st with ⟨r, sta⟩
    rw [hS] at hs
    simp only at hs
    subst hs
    simp [ht, hS]

theorem plansLoop_append_fail {σ : Type} (env : Env σ) (k : MetadataKeys)
    (ppre : List ServicePlan) (p : ServicePlan) (ppost : List ServicePlan)
    (st : State σ) (ppre1 : List ServicePlan) (st3 : State σ) (e : Error)
    (hpre : PlansResolved env k ppre st ppre1 st3) (hf : PlanFails env k p st3 e) :
    (plansLoop env k (ppre ++ p :: ppost) st).1 = Except.error (Result.ret none (some e)) := by
  induction ppre generalizing st ppre1 with
  | nil =>
    obtain ⟨-, rfl⟩ := hpre
    exact plansLoop_cons_fail env k p ppost _ e hf
  | cons q ppre ih =>
    obtain ⟨types, sch, st0, qs, ht, hs, -, hr⟩ := hpre
    have hS := (getSchemas_ok_iff _ _ _ _ _).mpr hs
    have h := ih st0 qs hr
    rcases hL : plansLoop env k (ppre ++ p :: ppost) st0 with ⟨rl, stb⟩
    rw [hL] at h
    simp only at h
    subst h
    simp [plansLoop, ht, hS, hL]

theorem servicesLoop_append_fail {σ : Type} (env : Env σ) (k : MetadataKeys)
    (pre : List (Option Service)) (s : Service) (post : List (Option Service))
    (st : State σ) (pre1 : List (Option Service)) (st2 : State σ)
    (r : Result brokerapi.Catalog)
    (hpre : ServicesResolved env k pre st pre1 st2)
    (hf : (plansLoop env k s.Plans st2).1 = Except.error r) :
    (servicesLoop env k (pre ++ some s :: post) st).1 = Except.error r := by
  induction pre generalizing st pre1 with
  | nil =>
    obtain ⟨-, rfl⟩ := hpre
    rcases hP : plansLoop env k s.Plans st2 with ⟨rp, sta⟩
    rw [hP] at hf
    simp only at hf
    subst hf
    simp [servicesLoop, hP]
  | cons os pre ih =>
    cases os with
    | none => exact absurd hpre (by simp [ServicesResolved])
    | some s0 =>
      obtain ⟨plans, st0, rest, hp, -, hr⟩ := hpre
      have hP := (plansLoop_ok_iff _ _ _ _ _ _).mpr hp
      have h := ih st0 rest hr
      rcases hL : servicesLoop env k (pre ++ some s :: post) st0 with ⟨rl, stb⟩
      rw [hL] at h
      simp only at h
      subst h
      simp [servicesLoop, hP, hL]

theorem PlansResolved_mem {σ : Type} (env : Env σ) (k : MetadataKeys)
    (ps : List ServicePlan) (st : State σ) (qs : List ServicePlan) (st1 : State σ)
    (h : PlansResolved env k ps st qs st1) :
    ∀ p ∈ ps, ∃ types sch sta stb,
      getTypesFromPlan k p = Result.ret (some types) none ∧
      SchemasFetched env types sta sch stb := by
  induction ps generalizing st qs with
  | nil => intro p hp; cases hp
  | cons q ps ih =>
    obtain ⟨types, sch, st0, qs1, ht, hs, -, hr⟩ := h
    intro p hp
    rcases List.mem_cons.mp hp with rfl | hp
    · exact ⟨types, sch, st, st0, ht, hs⟩
    · exact ih st0 qs1 hr p hp

theorem ServicesResolved_mem {σ : Type} (env : Env σ) (k : MetadataKeys)
    (ss : List (Option Service)) (st : State σ) (out : List (Option Service))
    (st1 : State σ) (h : ServicesResolved env k ss st out st1) :
    ∀ os ∈ ss, ∃ s, os = some s ∧ ∀ p ∈ s.Plans, ∃ types sch sta stb,
      getTypesFromPlan k p = Result.ret (some types) none ∧
      SchemasFetched env types sta sch stb := by
  induction ss generalizing st out with
  | nil => intro os hos; cases hos
  | cons o ss ih =>
    cases o with
    | none => exact absurd h (by simp [ServicesResolved])
    | some s =>
      obtain ⟨plans, st0, rest, hp, -, hr⟩ := h
      intro os hos
      rcases List.mem_cons.mp hos with rfl | hos
      · exact ⟨s, rfl, PlansResolved_mem env k _ _ _ _ hp⟩
      · exact ih st0 rest hr os hos

theorem PlansResolved_erase {σ : Type} (env : Env σ) (k : MetadataKeys)
    (ps : List ServicePlan) (st : State σ) (qs : List ServicePlan) (st1 : State σ)
    (h : PlansResolved env k ps st qs st1) :
    qs.map (fun p => { p with Schemas := none }) =
      ps.map (fun p => { p with Schemas := none }) := by
  induction ps generalizing st qs with
  | nil => obtain ⟨rfl, -⟩ := h; rfl
  | cons q ps ih =>
    obtain ⟨types, sch, st0, qs1, -, -, rfl, hr⟩ := h
    simp [ih st0 qs1 hr]

theorem ServicesResolved_erase {σ : Type} (env : Env σ) (k : MetadataKeys)
    (ss : List (Option Service)) (st : State σ) (out : List (Option Service))
    (st1 : State σ) (h : ServicesResolved env k ss st out st1) :
    out.map eraseSchemas = ss.map eraseSchemas := by
  induction ss generalizing st out with
  | nil => obtain ⟨rfl, -⟩ := h; rfl
  | cons o ss ih =>
    cases o with
    | none => exact absurd h (by simp [ServicesResolved])
    | some s =>
      obtain ⟨plans, st0, rest, hp, rfl, hr⟩ := h
      simp [eraseSchemas, ih st0 rest hr, PlansResolved_erase env k _ _ _ _ hp]

theorem plansLoop_error_shape {σ : Type} (env : Env σ) (k : MetadataKeys)
    (ps : List ServicePlan) (st : State σ) (r : Result brokerapi.Catalog)
    (h : (plansLoop env k ps st).1 = Except.error r) :
    r = Result.panic ∨ ∃ e, r = Result.ret none (some e) := by
  induction ps generalizing st with
  | nil => simp [plansLoop] at h
  | cons p ps ih =>
    unfold plansLoop at h
    cases hT : getTypesFromPlan k p with
    | panic =>
      simp only [hT, Except.error.injEq] at h
      exact Or.inl h.symm
    | ret v e =>
      cases e with
      | some err =>
        simp only [hT, Except.error.injEq] at h
        exact Or.inr ⟨err, h.symm⟩
      | none =>
        cases v with
        | none =>
          simp only [hT, Except.error.injEq] at h
          exact Or.inl h.symm
        | some types =>
          simp only [hT] at h
          rcases hS : k8sController.getSchemas env types st with ⟨rs, sta⟩
          rw [hS] at h
          cases rs with
          | panic =>
            simp only [Except.error.injEq] at h
            exact Or.inl h.symm
          | ret v2 e2 =>
            cases e2 with
            | some err =>
              simp only [Except.error.injEq] at h
              exact Or.inr ⟨err, h.symm⟩
            | none =>
              simp only at h
              rcases hL : plansLoop env k ps sta with ⟨rl, stb⟩
              rw [hL] at h
              cases rl with
              | ok qs => simp at h
              | error r1 =>
                simp only [Except.error.injEq] at h
                subst h
                exact ih sta (by rw [hL])

theorem servicesLoop_error_shape {σ : Type} (env : Env σ) (k : MetadataKeys)
    (ss : List (Option Service)) (st : State σ) (r : Result brokerapi.Catalog)
    (h : (servicesLoop env k ss st).1 = Except.error r) :
    r = Result.panic ∨ ∃ e, r = Result.ret none (some e) := by
  induction ss generalizing st with
  | nil => simp [servicesLoop] at h
  | cons o ss ih =>
    cases o with
    | none =>
      simp only [servicesLoop, Except.error.injEq] at h
      exact Or.inl h.symm
    | some s =>
      unfold servicesLoop at h
      rcases hP : plansLoop env k s.Plans st with ⟨rp, sta⟩
      rw [hP] at h
      cases rp with
      | error r1 =>
        simp only [Except.error.injEq] at h
        subst h
        exact plansLoop_error_shape env k s.Plans st _ (by rw [hP])
      | ok plans =>
        simp only at h
        rcases hL : servicesLoop env k ss sta with ⟨rl, stb⟩
        rw [hL] at h
        cases rl with
        | ok out => simp at h
        | error r1 =>
          simp only [Except.error.injEq] at h
          subst h
          exact ih sta (by rw [hL])

theorem Catalog_of_fetch_error {σ : Type} (c : k8sController) (env : Env σ)
    (k : MetadataKeys) (st : State σ) (e : Error)
    (h : (env.FetchObject c.catalogURL st.world).1 = Except.error e) :
    (k8sController.Catalog c env k st).1 = Result.ret none (some e) := by
  simp [k8sController.Catalog, util.FetchObject, h]

theorem Catalog_of_fetch_ok {σ : Type} (c : k8sController) (env : Env σ)
    (k : MetadataKeys) (st : State σ) (services : List (Option Service))
    (h : (env.FetchObject c.catalogURL st.world).1 = Except.ok services) :
    k8sController.Catalog c env k st =
      match servicesLoop env k services (util.FetchObject env c.catalogURL st).2 with
      | (Except.error r, st2) => (r, st2)
      | (Except.ok services1, st2) =>
        (Result.ret (some { Services := services1 }) none, st2) := by
  simp [k8sController.Catalog, util.FetchObject, h]

theorem Catalog_success_resolved {σ : Type} (c : k8sController) (env : Env σ)
    (k : MetadataKeys) (st : State σ) (cat : brokerapi.Catalog) (err : Option Error)
    (h : (k8sController.Catalog c env k st).1 = Result.ret (some cat) err) :
    err = none ∧ ∃ services,
      (env.FetchObject c.catalogURL st.world).1 = Except.ok services ∧
      ServicesResolved env k services (util.FetchObject env c.catalogURL st).2
        cat.Services (k8sController.Catalog c env k st).2 := by
  cases hF : (env.FetchObject c.catalogURL st.world).1 with
  | error e =>
    rw [Catalog_of_fetch_error c env k st e hF] at h
    simp at h
  | ok services =>
    rw [Catalog_of_fetch_ok c env k st services hF] at h ⊢
    rcases hL : servicesLoop env k services (util.FetchObject env c.catalogURL st).2 with
      ⟨rl, st2⟩
    rw [hL] at h
    cases rl with
    | ok out =>
      simp only [Result.ret.injEq, Option.some.injEq] at h
      obtain ⟨rfl, rfl⟩ := h
      exact ⟨rfl, services, rfl, (servicesLoop_ok_iff _ _ _ _ _ _).mp hL⟩
    | error r =>
      exfalso
      simp only at h
      subst h
      have hsh := servicesLoop_error_shape env k services _
        (Result.ret (some cat) err) (by rw [hL])
      rcases hsh with hp | ⟨e, he⟩
      · cases hp
      · cases he

theorem plansLoop_append_panic {σ : Type} (env : Env σ) (k : MetadataKeys)
    (ppre : List ServicePlan) (p : ServicePlan) (ppost : List ServicePlan)
    (st : State σ) (ppre1 : List ServicePlan) (st3 : State σ)
    (hpre : PlansResolved env k ppre st ppre1 st3)
    (hp : getTypesFromPlan k p = Result.panic) :
    (plansLoop env k (ppre ++ p :: ppost) st).1 = Except.error Result.panic := by
  induction ppre generalizing st ppre1 with
  | nil => simp [plansLoop, hp]
  | cons q ppre ih =>
    obtain ⟨types, sch, st0, qs, ht, hs, -, hr⟩ := hpre
    have hS := (getSchemas_ok_iff _ _ _ _ _).mpr hs
    have h := ih st0 qs hr
    rcases hL : plansLoop env k (ppre ++ p :: ppost) st0 with ⟨rl, stb⟩
    rw [hL] at h
    simp only at h
    subst h
    simp [plansLoop, ht, hS, hL]

theorem servicesLoop_append_nil {σ : Type} (env : Env σ) (k : MetadataKeys)
    (pre post : List (Option Service)) (st : State σ) (pre1 : List (Option Service))
    (st2 : State σ) (hpre : ServicesResolved env k pre st pre1 st2) :
    (servicesLoop env k (pre ++ none :: post) st).1 = Except.error Result.panic := by
  induction pre generalizing st pre1 with
  | nil => simp [servicesLoop]
  | cons os pre ih =>
    cases os with
    | none => exact absurd hpre (by simp [ServicesResolved])
    | some s0 =>
      obtain ⟨plans, st0, rest, hp, -, hr⟩ := hpre
      have hP := (plansLoop_ok_iff _ _ _ _ _ _).mpr hp
      have h := ih st0 rest hr
      rcases hL : servicesLoop env k (pre ++ none :: post) st0 with ⟨rl, stb⟩
      rw [hL] at h
      simp only at h
      subst h
      simp [servicesLoop, hP, hL]

theorem Catalog_of_loop_exit {σ : Type} (c : k8sController) (env : Env σ)
    (k : MetadataKeys) (st : State σ) (services : List (Option Service))
    (r : Result brokerapi.Catalog)
    (hF : (env.FetchObject c.catalogURL st.world).1 = Except.ok services)
    (hl : (servicesLoop env k services (util.FetchObject env c.catalogURL st).2).1 =
      Except.error r) :
    (k8sController.Catalog c env k st).1 = r := by
  rw [Catalog_of_fetch_ok c env k st _ hF]
  rcases hL : servicesLoop env k services (util.FetchObject env c.catalogURL st).2 with
    ⟨rl, stb⟩
  rw [hL] at hl
  simp only at hl
  subst hl
  rfl

/-- C7, as stated, fails: the registry answers two services, the plan of the
second lacks the instance-type key (so `getTypesFromPlan` returns the not-found
error for it), but the plan of the first has a string as metadata, and
`Catalog` panics there instead of returning `nil` with the not-found error. -/
theorem Catalog_all_or_nothing_counterexample :
    ((sampleEnv [some serviceWrongShape, some serviceNoKey]).FetchObject
        sampleController.catalogURL sampleState.world).1 =
      Except.ok [some serviceWrongShape, some serviceNoKey] ∧
    planNoInstanceKey ∈ serviceNoKey.Plans ∧
    getTypesFromPlan sampleKeys planNoInstanceKey =
      Result.ret none (some "Did not find usable types for plan plan-c") ∧
    (k8sController.Catalog sampleController
        (sampleEnv [some serviceWrongShape, some serviceNoKey]) sampleKeys sampleState).1 =
      Result.panic ∧
    (k8sController.Catalog sampleController
        (sampleEnv [some serviceWrongShape, some serviceNoKey]) sampleKeys sampleState).1 ≠
      Result.ret none (some "Did not find usable types for plan plan-c") := by
  refine ⟨rfl, ?_, by decide, rfl, ?_⟩
  · simp [serviceNoKey]
  · have h : (k8sController.Catalog sampleController
        (sampleEnv [some serviceWrongShape, some serviceNoKey]) sampleKeys sampleState).1 =
        Result.panic := rfl
    rw [h]
    exact fun h2 => Result.noConfusion h2

/-- C7, amended: if the registry fetch fails, `Catalog` returns `nil` and that
error; if the services before a service and the plans before one of its plans
all resolve, and resolving that plan returns an error (from `getTypesFromPlan`
or from `getSchemas`), `Catalog` returns `nil` and that error; if instead
`getTypesFromPlan` panics on that plan, or a `nil` service entry is reached
after the services before it resolved, `Catalog` panics; and when `Catalog`
returns a catalog it returns no error, the catalog is the outcome of resolving
every plan of every service in order along the run, no service is `nil`, and
type and schema resolution succeeded for every plan of every service. -/
theorem Catalog_all_or_nothing {σ : Type} (c : k8sController) (env : Env σ)
    (k : MetadataKeys) (st : State σ) :
    (∀ e, (env.FetchObject c.catalogURL st.world).1 = Except.error e →
      (k8sController.Catalog c env k st).1 = Result.ret none (some e)) ∧
    (∀ pre s post ppre p ppost pre1 ppre1 st2 st3 e,
      (env.FetchObject c.catalogURL st.world).1 = Except.ok (pre ++ some s :: post) →
      s.Plans = ppre ++ p :: ppost →
      ServicesResolved env k pre (util.FetchObject env c.catalogURL st).2 pre1 st2 →
      PlansResolved env k ppre st2 ppre1 st3 →
      PlanFails env k p st3 e →
      (k8sController.Catalog c env k st).1 = Result.ret none (some e)) ∧
    (∀ pre s post ppre p ppost pre1 ppre1 st2 st3,
      (env.FetchObject c.catalogURL st.world).1 = Except.ok (pre ++ some s :: post) →
      s.Plans = ppre ++ p :: ppost →
      ServicesResolved env k pre (util.FetchObject env c.catalogURL st).2 pre1 st2 →
      PlansResolved env k ppre st2 ppre1 st3 →
      getTypesFromPlan k p = Result.panic →
      (k8sController.Catalog c env k st).1 = Result.panic) ∧
    (∀ pre post pre1 st2,
      (env.FetchObject c.catalogURL st.world).1 = Except.ok (pre ++ none :: post) →
      ServicesResolved env k pre (util.FetchObject env c.catalogURL st).2 pre1 st2 →
      (k8sController.Catalog c env k st).1 = Result.panic) ∧
    (∀ cat err, (k8sController.Catalog c env k st).1 = Result.ret (some cat) err →
      err = none ∧ ∃ services,
        (env.FetchObject c.catalogURL st.world).1 = Except.ok services ∧
        ServicesResolved env k services (util.FetchObject env c.catalogURL st).2
          cat.Services (k8sController.Catalog c env k st).2 ∧
        ∀ os ∈ services, ∃ s, os = some s ∧ ∀ p ∈ s.Plans, ∃ types sch sta stb,
          getTypesFromPlan k p = Result.ret (some types) none ∧
          SchemasFetched env types sta sch stb) := by
  refine ⟨fun e h => Catalog_of_fetch_error c env k st e h, ?_, ?_, ?_, ?_⟩
  · intro pre s post ppre p ppost pre1 ppre1 st2 st3 e hF hs hpre hppre hf
    have hp := plansLoop_append_fail env k ppre p ppost st2 ppre1 st3 e hppre hf
    rw [← hs] at hp
    exact Catalog_of_loop_exit c env k st _ _ hF
      (servicesLoop_append_fail env k pre s post _ pre1 st2 _ hpre hp)
  · intro pre s post ppre p ppost pre1 ppre1 st2 st3 hF hs hpre hppre hpanic
    have hp := plansLoop_append_panic env k ppre p ppost st2 ppre1 st3 hppre hpanic
    rw [← hs] at hp
    exact Catalog_of_loop_exit c env k st _ _ hF
      (servicesLoop_append_fail env k pre s post _ pre1 st2 _ hpre hp)
  · intro pre post pre1 st2 hF hpre
    exact Catalog_of_loop_exit c env k st _ _ hF
      (servicesLoop_append_nil env k pre post _ pre1 st2 hpre)
  · intro cat err h
    obtain ⟨he, services, hF, hres⟩ := Catalog_success_resolved c env k st cat err h
    exact ⟨he, services, hF, hres, ServicesResolved_mem env k _ _ _ _ hres⟩

theorem Catalog_all_or_nothing_witness :
    (k8sController.Catalog sampleController sampleEnvDown sampleKeys sampleState).1 =
      Result.ret none (some "registry unreachable") ∧
    (k8sController.Catalog sampleController
        (sampleEnv [some serviceGood, some serviceNoKey]) sampleKeys sampleState).1 =
      Result.ret none (some "Did not find usable types for plan plan-c") ∧
    (k8sController.Catalog sampleController
        (sampleEnv [some serviceGood, some serviceWrongShape, some serviceNoKey])
        sampleKeys sampleState).1 = Result.panic ∧
    (k8sController.Catalog sampleController
        (sampleEnv [some serviceGood, none, some serviceNoKey])
        sampleKeys sampleState).1 = Result.panic ∧
    (∃ services,
      ((sampleEnv [some serviceGood]).FetchObject sampleController.catalogURL
          sampleState.world).1 = Except.ok services ∧
      ServicesResolved (sampleEnv [some serviceGood]) sampleKeys services
        (util.FetchObject (sampleEnv [some serviceGood]) sampleController.catalogURL
          sampleState).2
        [some serviceGoodResolved]
        (k8sController.Catalog sampleController (sampleEnv [some serviceGood]) sampleKeys
          sampleState).2 ∧
      ∀ os ∈ services, ∃ s, os = some s ∧ ∀ p ∈ s.Plans, ∃ types sch sta stb,
        getTypesFromPlan sampleKeys p = Result.ret (some types) none ∧
        SchemasFetched (sampleEnv [some serviceGood]) types sta sch stb) :=
  ⟨(Catalog_all_or_nothing sampleController sampleEnvDown sampleKeys sampleState).1
      "registry unreachable" rfl,
   (Catalog_all_or_nothing sampleController
      (sampleEnv [some serviceGood, some serviceNoKey]) sampleKeys sampleState).2.1
      [some serviceGood] serviceNoKey [] [] planNoInstanceKey []
      [some serviceGoodResolved] [] _ _ "Did not find usable types for plan plan-c"
      rfl rfl
      ((servicesLoop_ok_iff _ _ _ _ _ _).mp rfl)
      ⟨rfl, rfl⟩
      (Or.inl ⟨none, by decide⟩),
   (Catalog_all_or_nothing sampleController
      (sampleEnv [some serviceGood, some serviceWrongShape, some serviceNoKey])
      sampleKeys sampleState).2.2.1
      [some serviceGood] serviceWrongShape [some serviceNoKey] [] planStringMetadata []
      [some serviceGoodResolved] [] _ _
      rfl rfl
      ((servicesLoop_ok_iff _ _ _ _ _ _).mp rfl)
      ⟨rfl, rfl⟩
      (by decide),
   (Catalog_all_or_nothing sampleController
      (sampleEnv [some serviceGood, none, some serviceNoKey]) sampleKeys sampleState).2.2.2.1
      [some serviceGood] [some serviceNoKey] [some serviceGoodResolved] _
      rfl
      ((servicesLoop_ok_iff _ _ _ _ _ _).mp rfl),
   ((Catalog_all_or_nothing sampleController
      (sampleEnv [some serviceGood]) sampleKeys sampleState).2.2.2.2
      { Services := [some serviceGoodResolved] } none rfl).2⟩

/-- C8: when `Catalog` returns a catalog, its services are the registry's
services in the same order with the same plans in the same order, equal to them
once the `Schemas` fields are cleared; and each plan's `Schemas` is what was
fetched for its resolved types, in order: the instance schema always, the
binding schema when `Types.Binding` is non-empty, and otherwise no further
fetch and an empty `Schemas.Binding`. -/
theorem Catalog_success {σ : Type} (c : k8sController) (env : Env σ)
    (k : MetadataKeys) (st : State σ) (cat : brokerapi.Catalog) (err : Option Error)
    (h : (k8sController.Catalog c env k st).1 = Result.ret (some cat) err) :
    ∃ services,
      (env.FetchObject c.catalogURL st.world).1 = Except.ok services ∧
      cat.Services.map eraseSchemas = services.map eraseSchemas ∧
      ServicesResolved env k services (util.FetchObject env c.catalogURL st).2
        cat.Services (k8sController.Catalog c env k st).2 := by
  obtain ⟨-, services, hF, hres⟩ := Catalog_success_resolved c env k st cat err h
  exact ⟨services, hF, ServicesResolved_erase env k _ _ _ _ hres, hres⟩

theorem Catalog_success_witness :
    (k8sController.Catalog sampleController (sampleEnv [some serviceGood]) sampleKeys
        sampleState).1 =
      Result.ret (some { Services := [some serviceGoodResolved] }) none ∧
    ∃ services,
      ((sampleEnv [some serviceGood]).FetchObject sampleController.catalogURL
          sampleState.world).1 = Except.ok services ∧
      [some serviceGoodResolved].map eraseSchemas = services.map eraseSchemas ∧
      ServicesResolved (sampleEnv [some serviceGood]) sampleKeys services
        (util.FetchObject (sampleEnv [some serviceGood]) sampleController.catalogURL
          sampleState).2
        [some serviceGoodResolved]
        (k8sController.Catalog sampleController (sampleEnv [some serviceGood]) sampleKeys
          sampleState).2 :=
  ⟨rfl, Catalog_success sampleController (sampleEnv [some serviceGood]) sampleKeys
    sampleState { Services := [some serviceGoodResolved] } none rfl⟩

/-! ## Unbinding -/

/-- C9: `UnBind` returns exactly the error of the reifier's
`RemoveServiceBinding` on `createResourceName instanceID serviceInstance`: when
that removal fails, its error is returned and nothing else is called; when it
succeeds, `RemoveServiceInstance` is called on
`createResourceName bindingID serviceBinding` and `UnBind` returns `nil`
whatever that second call returns. -/
theorem UnBind_result {σ : Type} (env : Env σ) (instanceID bindingID : String)
    (st : State σ) :
    (k8sController.UnBind env instanceID bindingID st).1 =
      (env.RemoveServiceBinding (createResourceName instanceID serviceInstance) st.world).1 ∧
    (∀ e,
      (env.RemoveServiceBinding (createResourceName instanceID serviceInstance) st.world).1 =
        some e →
      (k8sController.UnBind env instanceID bindingID st).1 = some e ∧
      (k8sController.UnBind env instanceID bindingID st).2.calls =
        st.calls ++
          [Call.RemoveServiceBinding (createResourceName instanceID serviceInstance)]) ∧
    ((env.RemoveServiceBinding (createResourceName instanceID serviceInstance) st.world).1 =
        none →
      (k8sController.UnBind env instanceID bindingID st).1 = none ∧
      (k8sController.UnBind env instanceID bindingID st).2.calls =
        st.calls ++
          [Call.RemoveServiceBinding (createResourceName instanceID serviceInstance),
           Call.RemoveServiceInstance (createResourceName bindingID serviceBinding)]) := by
  unfold k8sController.UnBind reifier.RemoveServiceBinding reifier.RemoveServiceInstance
  cases h : (env.RemoveServiceBinding (createResourceName instanceID serviceInstance)
    st.world).1 with
  | none => simp [h]
  | some e => simp [h]

theorem UnBind_result_witness :
    ((sampleEnv []).RemoveServiceInstance (createResourceName "b-1" serviceBinding) 1).1 =
      some "no such proxy" ∧
    (k8sController.UnBind (sampleEnv []) "i-1" "b-1" sampleState).1 = none ∧
    (k8sController.UnBind (sampleEnv []) "i-1" "b-1" sampleState).2.calls =
      [] ++ [Call.RemoveServiceBinding (createResourceName "i-1" serviceInstance),
             Call.RemoveServiceInstance (createResourceName "b-1" serviceBinding)] ∧
    (k8sController.UnBind sampleEnvDown "i-1" "b-1" sampleState).1 = some "no such binding" :=
  ⟨rfl,
   ((UnBind_result (sampleEnv []) "i-1" "b-1" sampleState).2.2 rfl).1,
   ((UnBind_result (sampleEnv []) "i-1" "b-1" sampleState).2.2 rfl).2,
   ((UnBind_result sampleEnvDown "i-1" "b-1" sampleState).2.1 "no such binding" rfl).1⟩

/-! ## The binding store adapter -/

namespace tpr

theorem Create_calls {σ : Type} (t : tprStorageBinding) (w : watch.Consts)
    (env : Store σ) (in0 : servicecatalog.Binding) (st : StoreState σ) :
    (t.Create w env in0 st).2.calls = st.calls ∨
    (t.Create w env in0 st).2.calls =
      st.calls ++ [⟨StoreOp.Create, watch.ResourceType.ServiceBinding, t.ns⟩] := by
  unfold tprStorageBinding.Create
  simp only
  split
  · exact Or.inl rfl
  · exact Or.inr rfl

theorem List_calls {σ : Type} (t : tprStorageBinding) (env : Store σ) (st : StoreState σ) :
    (t.List env st).2.calls =
      st.calls ++ [⟨StoreOp.List, watch.ResourceType.ServiceBinding, t.ns⟩] := by
  unfold tprStorageBinding.List
  simp only
  split
  · rfl
  · split <;> rfl

theorem Update_calls {σ : Type} (t : tprStorageBinding) (w : watch.Consts)
    (env : Store σ) (in0 : servicecatalog.Binding) (st : StoreState σ) :
    (t.Update w env in0 st).2.calls = st.calls ∨
    (t.Update w env in0 st).2.calls =
      st.calls ++ [⟨StoreOp.Update, watch.ResourceType.ServiceBinding, "default"⟩] := by
  unfold tprStorageBinding.Update
  simp only
  split
  · exact Or.inl rfl
  · exact Or.inr rfl

/-- C10 fails for `Update`: an adapter built for namespace `"prod"` addresses
its create and list calls to `(ServiceBinding, "prod")`, but its update call to
`(ServiceBinding, "default")`. -/
theorem Update_ignores_namespace :
    ((newTPRStorageBinding "prod").Create sampleConsts sampleStore sampleBinding
        sampleStoreState).2.calls =
      [⟨StoreOp.Create, watch.ResourceType.ServiceBinding, "prod"⟩] ∧
    ((newTPRStorageBinding "prod").List sampleStore sampleStoreState).2.calls =
      [⟨StoreOp.List, watch.ResourceType.ServiceBinding, "prod"⟩] ∧
    ((newTPRStorageBinding "prod").Update sampleConsts sampleStore sampleBinding
        sampleStoreState).2.calls =
      [⟨StoreOp.Update, watch.ResourceType.ServiceBinding, "default"⟩] ∧
    ((newTPRStorageBinding "prod").Update sampleConsts sampleStore sampleBinding
        sampleStoreState).2.calls ≠
      [⟨StoreOp.Update, watch.ResourceType.ServiceBinding, "prod"⟩] := by
  refine ⟨by decide, by decide, by decide, by decide⟩

end tpr
